import Mathlib

/-!
Shallow embedding of the event-normalization core of the `multi-cloud`
repository: the `MultiCloudEvent` record with its content-negotiation
accessors (`src/multicloud/functions/common/multicloud_event.py`) and the
Knative ASGI adapter (`src/multicloud/functions/knative/adapters.py`).

External Python standard-library calls (json.loads, ET.fromstring,
urllib.parse.unquote, bytes.decode) are taken as explicit function
parameters of the embedded operations: each theorem quantifies over them
or constrains them only by the facts the source relies on.
-/

namespace MultiCloud

/-- Python values that can appear in a parsed body (JSON-like data). -/
inductive PyVal where
  | str (s : String)
  | int (n : Int)
  | bool (b : Bool)
  | null
  | list (items : List PyVal)
  | dict (entries : List (String × PyVal))

/-- The possible runtime shapes of `MultiCloudEvent.body`
(`Optional[Union[bytes, str, dict, list]]`); `bytes` are byte lists. -/
inductive BodyVal where
  | bytes (b : List Nat)
  | str (s : String)
  | dict (entries : List (String × PyVal))
  | list (items : List PyVal)

/-- The normalized event dataclass. Python dicts keep insertion order, so
`headers` is an association list in insertion order. -/
structure MultiCloudEvent where
  method : String
  path : String
  headers : List (String × String)
  query_string : String
  body : Option BodyVal
  source : String

/-- Substring search over character lists: does `pat` occur contiguously
inside `l`? -/
def containsSub (l pat : List Char) : Bool :=
  match l with
  | [] => pat.isEmpty
  | _ :: rest => pat.isPrefixOf l || containsSub rest pat

/-- Python `pat in s` on strings: substring containment. -/
def strContains (s pat : String) : Bool :=
  containsSub s.toList pat.toList

/-- Python `s.lower()` (character-wise; the headers and content types this
code compares are ASCII). -/
def strToLower (s : String) : String :=
  String.mk (s.toList.map Char.toLower)

/-- Python `s.startswith(pre)`. -/
def strStartsWith (s pre : String) : Bool :=
  pre.toList.isPrefixOf s.toList

/-- Python whitespace for `str.strip()` (ASCII range). -/
def pyWS (c : Char) : Bool :=
  c == Char.ofNat 32 || c == Char.ofNat 9 || c == Char.ofNat 10 ||
    c == Char.ofNat 13 || c == Char.ofNat 12 || c == Char.ofNat 11

/-- Python `s.strip()`: drop leading and trailing whitespace. -/
def pyStrip (s : String) : String :=
  String.mk (((s.toList.dropWhile pyWS).reverse.dropWhile pyWS).reverse)

/-- Association-list lookup: first entry with the exact key. -/
def alistGet {α : Type} (l : List (String × α)) (k : String) : Option α :=
  match l with
  | [] => Option.none
  | (k2, v) :: rest => if k2 = k then some v else alistGet rest k

/-- Python dict assignment `d[k] = v`: update in place if the key exists
(keeping its position), else append at the end. -/
def alistSet {α : Type} (l : List (String × α)) (k : String) (v : α) :
    List (String × α) :=
  match l with
  | [] => [(k, v)]
  | (k2, w) :: rest =>
    if k2 = k then (k2, v) :: rest else (k2, w) :: alistSet rest k v

/-- The `for key, value in self.headers.items()` loop of `get_header`:
return the value of the first key whose lowercasing matches. -/
def headerLookup (hs : List (String × String)) (nl : String) : Option String :=
  match hs with
  | [] => Option.none
  | (k, v) :: rest => if strToLower k = nl then some v else headerLookup rest nl

/-- `MultiCloudEvent.get_header(name, default)`: case-insensitive header
lookup, first match in insertion order wins, else the default. -/
def get_header (e : MultiCloudEvent) (name : String) (dflt : Option String) :
    Option String :=
  match headerLookup e.headers (strToLower name) with
  | some v => some v
  | Option.none => dflt

/-- The `self.get_header("content-type", "")` idiom shared by the
`is_*` predicates. -/
def contentTypeOf (e : MultiCloudEvent) : String :=
  (get_header e "content-type" (some "")).getD ""

/-- `MultiCloudEvent.is_json()`. -/
def is_json (e : MultiCloudEvent) : Bool :=
  strContains (strToLower (contentTypeOf e)) "application/json" ||
    strContains (strToLower (contentTypeOf e)) "text/json"

/-- `MultiCloudEvent.is_xml()`. -/
def is_xml (e : MultiCloudEvent) : Bool :=
  strContains (strToLower (contentTypeOf e)) "application/xml" ||
    strContains (strToLower (contentTypeOf e)) "text/xml"

/-- `MultiCloudEvent.is_form_data()`. -/
def is_form_data (e : MultiCloudEvent) : Bool :=
  strContains (strToLower (contentTypeOf e)) "application/x-www-form-urlencoded"

/-- `MultiCloudEvent.is_multipart()`. -/
def is_multipart (e : MultiCloudEvent) : Bool :=
  strContains (strToLower (contentTypeOf e)) "multipart/form-data"

/-- `MultiCloudEvent.is_binary()`: true iff the body is a byte sequence. -/
def is_binary (e : MultiCloudEvent) : Bool :=
  match e.body with
  | some (BodyVal.bytes _) => true
  | _ => false

/-- `MultiCloudEvent.get_json()`. The parameter `jl` stands for
`try: json.loads(s) except JSONDecodeError: None` (the only stdlib call);
the branching follows the source: a `dict` body is returned as-is, a `str`
body is parsed only when `is_json()` holds, everything else gives None. -/
def get_json (jl : String → Option PyVal) (e : MultiCloudEvent) : Option PyVal :=
  match e.body with
  | some (BodyVal.dict entries) => some (PyVal.dict entries)
  | some (BodyVal.str s) => if is_json e then jl s else Option.none
  | _ => Option.none

/-- `MultiCloudEvent.get_binary()`. -/
def get_binary (e : MultiCloudEvent) : Option (List Nat) :=
  match e.body with
  | some (BodyVal.bytes b) => some b
  | _ => Option.none

/-- `MultiCloudEvent.get_text()` at its default encoding. The parameter
`udec` stands for `try: b.decode("utf-8") except UnicodeDecodeError: None`. -/
def get_text (udec : List Nat → Option String) (e : MultiCloudEvent) :
    Option String :=
  match e.body with
  | some (BodyVal.str s) => some s
  | some (BodyVal.bytes b) => udec b
  | _ => Option.none

/-- Standard base64 alphabet, as used by `base64.b64encode`. -/
def b64chars : List Char :=
  "ABCDEFGHIJKLMNOPQRSTUVWXYZabcdefghijklmnopqrstuvwxyz0123456789+/".toList

/-- One base64 output character. -/
def b64char (n : Nat) : String :=
  String.mk [((b64chars.get? (n % 64)).getD (Char.ofNat 65))]

/-- `base64.b64encode(bs).decode("ascii")`: 3-byte groups become 4
characters, with `=` padding. -/
def b64encode (bs : List Nat) : String :=
  match bs with
  | [] => ""
  | [b1] => b64char (b1 / 4) ++ b64char ((b1 % 4) * 16) ++ "=="
  | [b1, b2] =>
    b64char (b1 / 4) ++ b64char ((b1 % 4) * 16 + b2 / 16) ++
      b64char ((b2 % 16) * 4) ++ "="
  | b1 :: b2 :: b3 :: rest =>
    b64char (b1 / 4) ++ b64char ((b1 % 4) * 16 + b2 / 16) ++
      b64char ((b2 % 16) * 4 + b3 / 64) ++ b64char (b3 % 64) ++ b64encode rest

/-- `MultiCloudEvent.get_base64()`. -/
def get_base64 (e : MultiCloudEvent) : Option String :=
  match e.body with
  | some (BodyVal.bytes b) => some (b64encode b)
  | _ => Option.none

mutual

/-- An `xml.etree.ElementTree` element: tag, attributes, text before the
first child, and the child elements in document order. -/
inductive XmlElem where
  | mk (tag : String) (attrib : List (String × String)) (text : Option String)
      (children : XmlForest)

/-- A sequence of sibling XML elements (a mutual inductive stands in for a
list so that the conversion below is structurally recursive). -/
inductive XmlForest where
  | nil
  | cons (e : XmlElem) (rest : XmlForest)

end

/-- The tag of the element. -/
def XmlElem.tag : XmlElem → String
  | XmlElem.mk t _ _ _ => t

/-- Is the sibling sequence empty (`len(element) == 0`)? -/
def XmlForest.isEmpty : XmlForest → Bool
  | XmlForest.nil => true
  | XmlForest.cons _ _ => false

/-- The tags of a sibling sequence, in document order. -/
def XmlForest.tags : XmlForest → List String
  | XmlForest.nil => []
  | XmlForest.cons e rest => e.tag :: XmlForest.tags rest

/-- Merging one converted child into the accumulated result dict: the
`if child.tag in result` branch of `_xml_to_dict`. -/
def addChild (res : List (String × PyVal)) (tag : String) (cd : PyVal) :
    List (String × PyVal) :=
  match alistGet res tag with
  | Option.none => res ++ [(tag, cd)]
  | some (PyVal.list items) => alistSet res tag (PyVal.list (items ++ [cd]))
  | some old => alistSet res tag (PyVal.list [old, cd])

mutual

/-- `MultiCloudEvent._xml_to_dict`: attributes go under `"@attributes"`,
a childless element with non-whitespace text collapses to that trimmed
text, otherwise the trimmed text goes under `"text"` and the children are
merged tag by tag. -/
def xml_to_dict (e : XmlElem) : PyVal :=
  match e with
  | XmlElem.mk _ attrib text children =>
    let res0 : List (String × PyVal) :=
      if attrib.isEmpty then []
      else [("@attributes", PyVal.dict (attrib.map (fun p => (p.1, PyVal.str p.2))))]
    let t := text.getD ""
    let hasText : Bool := !(t == "") && !(pyStrip t == "")
    if hasText && children.isEmpty then PyVal.str (pyStrip t)
    else
      let res1 := if hasText then alistSet res0 "text" (PyVal.str (pyStrip t)) else res0
      PyVal.dict (xmlChildren res1 children)

/-- The `for child in element` loop of `_xml_to_dict`. -/
def xmlChildren (res : List (String × PyVal)) (cs : XmlForest) :
    List (String × PyVal) :=
  match cs with
  | XmlForest.nil => res
  | XmlForest.cons c rest => xmlChildren (addChild res c.tag (xml_to_dict c)) rest

end

/-- `MultiCloudEvent.get_xml()`. The parameter `xp` stands for
`try: ET.fromstring(s) except ParseError: None`. -/
def get_xml (xp : String → Option XmlElem) (e : MultiCloudEvent) : Option PyVal :=
  match e.body with
  | some (BodyVal.str s) =>
    if is_xml e then
      match xp s with
      | some root => some (xml_to_dict root)
      | Option.none => Option.none
    else Option.none
  | _ => Option.none

/-- `name.replace("+", " ")` from `urllib.parse.parse_qsl`. -/
def plusToSpace (s : String) : String :=
  String.mk (s.toList.map (fun c => if c == Char.ofNat 43 then Char.ofNat 32 else c))

/-- Splitting a character list at every occurrence of `sep` (Python
`s.split(sep)`): `cur` is the reversed chunk read so far. -/
def splitChars (sep : Char) (l : List Char) (cur : List Char) : List (List Char) :=
  match l with
  | [] => [cur.reverse]
  | c :: rest =>
    if c == sep then cur.reverse :: splitChars sep rest []
    else splitChars sep rest (c :: cur)

/-- Python `s.split(sep)` for a one-character separator. -/
def strSplitOn (sep : Char) (s : String) : List String :=
  (splitChars sep s.toList []).map String.mk

/-- `name_value.split("=", 1)` when it found a separator: the part before
the first `=` and everything after it; None when there is no `=`.
`acc` holds the reversed characters read before the separator. -/
def splitFirstEqAux (l : List Char) (acc : List Char) : Option (String × String) :=
  match l with
  | [] => Option.none
  | c :: rest =>
    if c == Char.ofNat 61 then some (String.mk acc.reverse, String.mk rest)
    else splitFirstEqAux rest (c :: acc)

/-- Split a field at its first `=`, if any. -/
def splitFirstEq (s : String) : Option (String × String) :=
  splitFirstEqAux s.toList []

/-- `urllib.parse.parse_qsl(qs)` at its defaults (blank values and
separator-less fields dropped, fields split on `&`). The parameter `unq`
stands for `urllib.parse.unquote` at encoding utf-8, errors replace. -/
def parse_qsl (unq : String → String) (qs : String) : List (String × String) :=
  let pieces := if qs = "" then [] else strSplitOn (Char.ofNat 38) qs
  pieces.filterMap (fun nv =>
    if nv = "" then Option.none
    else
      match splitFirstEq nv with
      | Option.none => Option.none
      | some (n, v) =>
        if v = "" then Option.none
        else some (unq (plusToSpace n), unq (plusToSpace v)))

/-- Grouping step of `urllib.parse.parse_qs`: append the value to the
entry of its name, creating the entry at the end on first sight. -/
def groupAppend (d : List (String × List String)) (k : String) (v : String) :
    List (String × List String) :=
  match d with
  | [] => [(k, [v])]
  | (k2, vs) :: rest =>
    if k2 = k then (k2, vs ++ [v]) :: rest else (k2, vs) :: groupAppend rest k v

/-- `urllib.parse.parse_qs(qs)`: group the `parse_qsl` pairs by name,
values in arrival order. -/
def parse_qs (unq : String → String) (qs : String) : List (String × List String) :=
  (parse_qsl unq qs).foldl (fun d p => groupAppend d p.1 p.2) []

/-- `MultiCloudEvent.get_query_param(name, default)`:
`parse_qs(self.query_string).get(name, [default])[0]`. The `some []` case
is unreachable (`parse_qs` never stores an empty value list). -/
def get_query_param (unq : String → String) (e : MultiCloudEvent)
    (name : String) (dflt : Option String) : Option String :=
  match alistGet (parse_qs unq e.query_string) name with
  | some (v :: _) => some v
  | some [] => dflt
  | Option.none => dflt

/-- An ASGI receive message as the adapter reads it: `message["type"]`
(None models a missing key, which raises KeyError), `message.get("body",
b"")` and `message.get("more_body", False)`. -/
structure AsgiMessage where
  type : Option String
  body : Option (List Nat)
  more_body : Option Bool

/-- One behaviour of one `await receive()` call: deliver a message, or
raise a `ConnectionError` / `asyncio.TimeoutError` whose `str(e)` is
`detail`. -/
inductive RecvResult where
  | ok (m : AsgiMessage)
  | connError (detail : String)

/-- The parts of the ASGI scope the adapter reads, each through
`scope.get(...)` with a default; None models an absent key. -/
structure Scope where
  method : Option String
  path : Option String
  headers : Option (List (List Nat × List Nat))
  query_string : Option (List Nat)

/-- The exceptions the body-draining loop can raise. -/
inductive DrainErr where
  | conn (detail : String)
  | missingKey (detail : String)

/-- A single-quote character, for Python `str(KeyError(k))` which is the
repr of the key. -/
def pyQuote : String :=
  String.mk [Char.ofNat 39]

/-- The `while message.get("more_body", False)` loop: keep receiving and
appending `message.get("body", b"")`. None means the channel was
exhausted without the loop terminating (the unmodelled hang). -/
def drainMore (recv : List RecvResult) (acc : List Nat) (more : Bool) :
    Option (Except DrainErr (List Nat × List RecvResult)) :=
  if more then
    match recv with
    | [] => Option.none
    | RecvResult.connError d :: _ => some (Except.error (DrainErr.conn d))
    | RecvResult.ok m :: rest =>
      drainMore rest (acc ++ m.body.getD []) (m.more_body.getD false)
  else some (Except.ok (acc, recv))

/-- The body-accumulation phase of `adapt_asgi_request`: first receive,
`message["type"]` check (KeyError when absent), then the more-body loop.
A first message of another type leaves the body empty and receives no
further message. Returns the accumulated bytes and the unconsumed tail of
the channel. -/
def drainBody (recv : List RecvResult) :
    Option (Except DrainErr (List Nat × List RecvResult)) :=
  match recv with
  | [] => Option.none
  | RecvResult.connError d :: _ => some (Except.error (DrainErr.conn d))
  | RecvResult.ok m :: rest =>
    match m.type with
    | Option.none =>
      some (Except.error (DrainErr.missingKey (pyQuote ++ "type" ++ pyQuote)))
    | some t =>
      if t = "http.request" then
        drainMore rest (m.body.getD []) (m.more_body.getD false)
      else some (Except.ok ([], rest))

/-- The header-decoding loop of `adapt_asgi_request`: each raw name and
value is decoded independently and stored with Python dict-assignment
semantics; the first decode fault aborts with its `str(e)`. The parameter
`udec` stands for `bytes.decode("utf-8")`, errors carried in `Except`. -/
def decodeHeaders (udec : List Nat → Except String String)
    (hs : List (List Nat × List Nat)) (acc : List (String × String)) :
    Except String (List (String × String)) :=
  match hs with
  | [] => Except.ok acc
  | (n, v) :: rest =>
    match udec n with
    | Except.error d => Except.error d
    | Except.ok ns =>
      match udec v with
      | Except.error d => Except.error d
      | Except.ok vs => decodeHeaders udec rest (alistSet acc ns vs)

/-- The allow-list of text-like content-type prefixes in `_convert_body`. -/
def text_types : List String :=
  ["text/", "application/json", "application/xml",
   "application/x-www-form-urlencoded", "multipart/"]

/-- `_convert_body(body, content_type)`: empty bytes give None; an
allow-listed (case-insensitive) content-type is decoded as UTF-8 with a
fallback to the raw bytes; anything else stays bytes. -/
def convert_body (udec : List Nat → Except String String) (body : List Nat)
    (ct : String) : Option BodyVal :=
  if body = [] then Option.none
  else
    let ctl := strToLower ct
    if text_types.any (fun t => strStartsWith ctl t) then
      match udec body with
      | Except.ok s => some (BodyVal.str s)
      | Except.error _ => some (BodyVal.bytes body)
    else some (BodyVal.bytes body)

/-- The diagnostic event of the `except (ConnectionError,
asyncio.TimeoutError)` handler. -/
def connErrorEvent (scope : Scope) (d : String) : MultiCloudEvent :=
  { method := scope.method.getD "GET", path := scope.path.getD "/",
    headers := [("x-error", "Connection error: " ++ d)], query_string := "",
    body := Option.none, source := "knative" }

/-- The diagnostic event of the `except (UnicodeDecodeError, UnicodeError)`
handler. -/
def encodingErrorEvent (scope : Scope) (d : String) : MultiCloudEvent :=
  { method := scope.method.getD "GET", path := scope.path.getD "/",
    headers := [("x-error", "Encoding error: " ++ d)], query_string := "",
    body := Option.none, source := "knative" }

/-- The diagnostic event of the `except KeyError` handler. -/
def missingKeyEvent (d : String) : MultiCloudEvent :=
  { method := "GET", path := "/",
    headers := [("x-error", "Missing key: " ++ d)], query_string := "",
    body := Option.none, source := "knative" }

/-- `adapt_asgi_request(scope, receive)`, with the behaviour of the receive
channel given as the list of results of successive `await receive()`
calls; None when the channel list is exhausted before the loop ends. -/
def adapt_asgi_request (udec : List Nat → Except String String) (scope : Scope)
    (recv : List RecvResult) : Option MultiCloudEvent :=
  match drainBody recv with
  | Option.none => Option.none
  | some (Except.error (DrainErr.conn d)) => some (connErrorEvent scope d)
  | some (Except.error (DrainErr.missingKey d)) => some (missingKeyEvent d)
  | some (Except.ok (bodyBytes, _)) =>
    match decodeHeaders udec (scope.headers.getD []) [] with
    | Except.error d => some (encodingErrorEvent scope d)
    | Except.ok headers =>
      let parsed := convert_body udec bodyBytes ((alistGet headers "content-type").getD "")
      match udec (scope.query_string.getD []) with
      | Except.error d => some (encodingErrorEvent scope d)
      | Except.ok qs =>
        some { method := scope.method.getD "GET", path := scope.path.getD "/",
               headers := headers, query_string := qs, body := parsed,
               source := "knative" }

/-- A well-formed chunked body delivery: one `http.request` message per
chunk, `more_body` true on every chunk but the last. -/
def chunkMsgs : List (List Nat) → List RecvResult
  | [] => []
  | [c] => [RecvResult.ok ⟨some "http.request", some c, some false⟩]
  | c :: rest =>
    RecvResult.ok ⟨some "http.request", some c, some true⟩ :: chunkMsgs rest

/-! Supporting lemmas about the association-list and lookup helpers. -/

theorem alistGet_nil {α : Type} (k : String) :
    alistGet ([] : List (String × α)) k = Option.none := rfl

theorem alistGet_cons {α : Type} (k2 k : String) (v : α) (l : List (String × α)) :
    alistGet ((k2, v) :: l) k = if k2 = k then some v else alistGet l k := rfl

theorem alistSet_nil {α : Type} (k : String) (v : α) :
    alistSet ([] : List (String × α)) k v = [(k, v)] := rfl

theorem alistSet_cons {α : Type} (k2 k : String) (w v : α) (l : List (String × α)) :
    alistSet ((k2, w) :: l) k v =
      if k2 = k then (k2, v) :: l else (k2, w) :: alistSet l k v := rfl

theorem headerLookup_cons (k v : String) (l : List (String × String)) (nl : String) :
    headerLookup ((k, v) :: l) nl =
      if strToLower k = nl then some v else headerLookup l nl := rfl

theorem headerLookup_eq_find (hs : List (String × String)) (nl : String) :
    headerLookup hs nl =
      (hs.find? (fun p => strToLower p.1 == nl)).map Prod.snd := by
  induction hs with
  | nil => rfl
  | cons kv rest ih =>
    obtain ⟨k, v⟩ := kv
    rw [headerLookup_cons]
    by_cases h : strToLower k = nl
    · rw [if_pos h, List.find?_cons_of_pos _ (by simpa using h)]
      rfl
    · rw [if_neg h, List.find?_cons_of_neg _ (by simpa using h), ih]

theorem find_eq_filter_head {α : Type} (l : List α) (p : α → Bool) :
    l.find? p = (l.filter p).head? := by
  induction l with
  | nil => rfl
  | cons a rest ih =>
    by_cases h : p a = true
    · rw [List.find?_cons_of_pos _ h, List.filter_cons_of_pos h]
      rfl
    · rw [List.find?_cons_of_neg _ (by simpa using h),
        List.filter_cons_of_neg (by simpa using h), ih]

theorem alistGet_alistSet_self {α : Type} (l : List (String × α)) (k : String)
    (v : α) : alistGet (alistSet l k v) k = some v := by
  induction l with
  | nil =>
    rw [alistSet_nil, alistGet_cons, if_pos rfl]
  | cons kv rest ih =>
    obtain ⟨k2, w⟩ := kv
    rw [alistSet_cons]
    by_cases h : k2 = k
    · rw [if_pos h, alistGet_cons, if_pos h]
    · rw [if_neg h, alistGet_cons, if_neg h, ih]

theorem alistGet_alistSet_ne {α : Type} (l : List (String × α)) (k k2 : String)
    (v : α) (h : ¬ k = k2) : alistGet (alistSet l k v) k2 = alistGet l k2 := by
  induction l with
  | nil =>
    rw [alistSet_nil, alistGet_cons, if_neg h, alistGet_nil]
  | cons kv rest ih =>
    obtain ⟨k3, w⟩ := kv
    rw [alistSet_cons]
    by_cases h2 : k3 = k
    · rw [if_pos h2, alistGet_cons, alistGet_cons]
      have h3 : ¬ k3 = k2 := by rw [h2]; exact h
      rw [if_neg h3, if_neg h3]
    · rw [if_neg h2, alistGet_cons, alistGet_cons, ih]

theorem alistGet_append_one {α : Type} (l : List (String × α)) (k k2 : String)
    (v : α) :
    alistGet (l ++ [(k, v)]) k2 =
      match alistGet l k2 with
      | some w => some w
      | Option.none => if k = k2 then some v else Option.none := by
  induction l with
  | nil => rfl
  | cons kv rest ih =>
    obtain ⟨k3, w⟩ := kv
    rw [List.cons_append, alistGet_cons, alistGet_cons]
    by_cases h3 : k3 = k2
    · rw [if_pos h3, if_pos h3]
    · rw [if_neg h3, if_neg h3, ih]

theorem alistGet_addChild_ne (res : List (String × PyVal)) (tag k : String)
    (cd : PyVal) (h : ¬ tag = k) :
    alistGet (addChild res tag cd) k = alistGet res k := by
  unfold addChild
  cases hg : alistGet res tag with
  | none =>
    rw [alistGet_append_one]
    cases alistGet res k with
    | none => simp [h]
    | some w => rfl
  | some old =>
    cases old <;> rw [alistGet_alistSet_ne _ _ _ _ h]

theorem xmlChildren_get_ne : ∀ (cs : XmlForest) (res : List (String × PyVal))
    (k : String), (∀ t ∈ XmlForest.tags cs, ¬ t = k) →
    alistGet (xmlChildren res cs) k = alistGet res k
  | XmlForest.nil, _, _, _ => rfl
  | XmlForest.cons c rest, res, k, h => by
    have hc : ¬ XmlElem.tag c = k := h (XmlElem.tag c) (List.mem_cons_self _ _)
    calc alistGet (xmlChildren res (XmlForest.cons c rest)) k
        = alistGet (xmlChildren (addChild res (XmlElem.tag c) (xml_to_dict c)) rest) k := rfl
      _ = alistGet (addChild res (XmlElem.tag c) (xml_to_dict c)) k :=
          xmlChildren_get_ne rest _ k (fun t ht => h t (List.mem_cons_of_mem _ ht))
      _ = alistGet res k := alistGet_addChild_ne _ _ _ _ hc

theorem groupAppend_cons (k3 k : String) (vs : List String) (v : String)
    (rest : List (String × List String)) :
    groupAppend ((k3, vs) :: rest) k v =
      if k3 = k then (k3, vs ++ [v]) :: rest
      else (k3, vs) :: groupAppend rest k v := rfl

theorem groupAppend_get (d : List (String × List String)) (k : String) (v : String)
    (k2 : String) :
    alistGet (groupAppend d k v) k2 =
      if k = k2 then some ((alistGet d k).getD [] ++ [v]) else alistGet d k2 := by
  induction d with
  | nil =>
    show alistGet [(k, [v])] k2 = _
    by_cases h : k = k2
    · simp [alistGet_cons, alistGet_nil, h]
    · simp [alistGet_cons, alistGet_nil, h]
  | cons kv rest ih =>
    obtain ⟨k3, vs⟩ := kv
    rw [groupAppend_cons]
    by_cases h3 : k3 = k
    · subst h3
      by_cases h2 : k3 = k2
      · simp [alistGet_cons, h2]
      · simp [alistGet_cons, h2]
    · rw [if_neg h3]
      by_cases h2 : k3 = k2
      · have hk : ¬ k = k2 := fun hq => h3 (h2.trans hq.symm)
        simp [alistGet_cons, h2, hk]
      · simp [alistGet_cons, h2, h3, ih]

theorem foldl_group_get (pairs : List (String × String))
    (d : List (String × List String)) (name : String) :
    alistGet (pairs.foldl (fun d p => groupAppend d p.1 p.2) d) name =
      match alistGet d name, (pairs.filter (fun p => p.1 == name)).map Prod.snd with
      | some vs, ws => some (vs ++ ws)
      | Option.none, [] => Option.none
      | Option.none, ws => some ws := by
  induction pairs generalizing d with
  | nil =>
    cases hd : alistGet d name with
    | none =>
      rw [List.foldl_nil, hd]
      rfl
    | some vs =>
      rw [List.foldl_nil, hd]
      simp
  | cons p rest ih =>
    obtain ⟨a, b⟩ := p
    rw [List.foldl_cons, ih]
    by_cases ha : a = name
    · subst ha
      rw [groupAppend_get, if_pos rfl, List.filter_cons_of_pos (by simp),
        List.map_cons]
      cases hd : alistGet d a with
      | none => simp [hd]
      | some vs => simp [hd]
    · rw [groupAppend_get, if_neg ha, List.filter_cons_of_neg (by simpa using ha)]

theorem drainMore_stop (recv : List RecvResult) (acc : List Nat) :
    drainMore recv acc false = some (Except.ok (acc, recv)) := by
  rw [drainMore.eq_def]
  simp

theorem drainMore_step (m : AsgiMessage) (rest : List RecvResult) (acc : List Nat) :
    drainMore (RecvResult.ok m :: rest) acc true =
      drainMore rest (acc ++ m.body.getD []) (m.more_body.getD false) := by
  rw [drainMore]
  simp

theorem drainMore_chunks (t : List (List Nat)) :
    ∀ (c : List Nat) (rest : List RecvResult) (acc : List Nat),
    drainMore (chunkMsgs (c :: t) ++ rest) acc true =
      some (Except.ok (acc ++ (c :: t).flatten, rest)) := by
  induction t with
  | nil =>
    intro c rest acc
    have h1 : chunkMsgs [c] ++ rest =
        RecvResult.ok ⟨some "http.request", some c, some false⟩ :: rest := rfl
    rw [h1, drainMore_step]
    show drainMore rest (acc ++ c) false = _
    rw [drainMore_stop]
    simp
  | cons c2 t2 ih =>
    intro c rest acc
    have h1 : chunkMsgs (c :: c2 :: t2) ++ rest =
        RecvResult.ok ⟨some "http.request", some c, some true⟩ ::
          (chunkMsgs (c2 :: t2) ++ rest) := rfl
    rw [h1, drainMore_step]
    show drainMore (chunkMsgs (c2 :: t2) ++ rest) (acc ++ c) true = _
    rw [ih]
    simp

theorem chunkMsgs_length (chunks : List (List Nat)) :
    (chunkMsgs chunks).length = chunks.length := by
  induction chunks with
  | nil => rfl
  | cons c t ih =>
    cases t with
    | nil => rfl
    | cons c2 t2 =>
      show (chunkMsgs (c2 :: t2)).length + 1 = (c2 :: t2).length + 1
      rw [ih]

/-! Claim theorems. -/

/-- C1 counterexample: the claim says a parsed mapping/sequence body is
returned as-is, but a parsed sequence (`list`) body makes `get_json()`
return None — even with a JSON content type and a parser that always
succeeds. -/
theorem C1_sequence_body_counterexample :
    get_json (fun s => some (PyVal.str s))
        ⟨"POST", "/", [("content-type", "application/json")], "",
          some (BodyVal.list [PyVal.int 1]), "unknown"⟩ = Option.none ∧
      ¬ get_json (fun s => some (PyVal.str s))
        ⟨"POST", "/", [("content-type", "application/json")], "",
          some (BodyVal.list [PyVal.int 1]), "unknown"⟩ =
        some (PyVal.list [PyVal.int 1]) :=
  ⟨rfl, fun h => nomatch h⟩

/-- C1 (amended): `get_json()` returns the body as-is only when it is a
parsed mapping (dict); a parsed sequence (list) body yields None; a text
body is parsed exactly when `is_json()` holds, with None on parse failure;
and a text body under a non-JSON content type yields None. -/
theorem C1_get_json_amended (jl : String → Option PyVal) (e : MultiCloudEvent) :
    (∀ entries, e.body = some (BodyVal.dict entries) →
      get_json jl e = some (PyVal.dict entries)) ∧
    (∀ s, e.body = some (BodyVal.str s) → is_json e = true →
      get_json jl e = jl s) ∧
    (∀ s, e.body = some (BodyVal.str s) → is_json e = true →
      jl s = Option.none → get_json jl e = Option.none) ∧
    (∀ s, e.body = some (BodyVal.str s) → is_json e = false →
      get_json jl e = Option.none) ∧
    (∀ items, e.body = some (BodyVal.list items) →
      get_json jl e = Option.none) := by
  refine ⟨?_, ?_, ?_, ?_, ?_⟩
  · intro entries hb
    simp [get_json, hb]
  · intro s hb hj
    simp [get_json, hb, hj]
  · intro s hb hj hn
    simp [get_json, hb, hj, hn]
  · intro s hb hj
    simp [get_json, hb, hj]
  · intro items hb
    simp [get_json, hb]

/-- Witness for C1: the round trip from the spec, evaluated concretely — the
body text `{"a":1}` under `application/json` parses, and the same text
under `text/plain` yields None. -/
theorem C1_get_json_amended_witness :
    get_json
        (fun s => if s = "\x7b\"a\":1\x7d"
          then some (PyVal.dict [("a", PyVal.int 1)]) else Option.none)
        ⟨"POST", "/", [("content-type", "application/json")], "",
          some (BodyVal.str "\x7b\"a\":1\x7d"), "unknown"⟩ =
      some (PyVal.dict [("a", PyVal.int 1)]) ∧
    get_json
        (fun s => if s = "\x7b\"a\":1\x7d"
          then some (PyVal.dict [("a", PyVal.int 1)]) else Option.none)
        ⟨"POST", "/", [("content-type", "text/plain")], "",
          some (BodyVal.str "\x7b\"a\":1\x7d"), "unknown"⟩ = Option.none := by
  constructor
  · exact ((C1_get_json_amended
      (fun s => if s = "\x7b\"a\":1\x7d"
        then some (PyVal.dict [("a", PyVal.int 1)]) else Option.none)
      ⟨"POST", "/", [("content-type", "application/json")], "",
        some (BodyVal.str "\x7b\"a\":1\x7d"), "unknown"⟩).2.1
      "\x7b\"a\":1\x7d" rfl rfl).trans rfl
  · exact (C1_get_json_amended
      (fun s => if s = "\x7b\"a\":1\x7d"
        then some (PyVal.dict [("a", PyVal.int 1)]) else Option.none)
      ⟨"POST", "/", [("content-type", "text/plain")], "",
        some (BodyVal.str "\x7b\"a\":1\x7d"), "unknown"⟩).2.2.2.1
      "\x7b\"a\":1\x7d" rfl rfl

/-- C3: whenever draining the receive channel hits a connectivity or
timeout fault, the adapter swallows it and returns an Event whose headers
are exactly the `x-error` connection entry, with best-effort method/path,
empty query string, no body, and source still "knative"; in particular a
fault on the very first receive produces that drain outcome. -/
theorem C3_connection_error (udec : List Nat → Except String String)
    (scope : Scope) (recv : List RecvResult) (d : String)
    (h : drainBody recv = some (Except.error (DrainErr.conn d))) :
    (∀ rest, drainBody (RecvResult.connError d :: rest) =
      some (Except.error (DrainErr.conn d))) ∧
    ∃ ev, adapt_asgi_request udec scope recv = some ev ∧
      ev.headers = [("x-error", "Connection error: " ++ d)] ∧
      ev.method = scope.method.getD "GET" ∧ ev.path = scope.path.getD "/" ∧
      ev.query_string = "" ∧ ev.source = "knative" ∧ ev.body = Option.none := by
  refine ⟨fun rest => rfl,
    connErrorEvent scope d, ?_, rfl, rfl, rfl, rfl, rfl, rfl⟩
  simp [adapt_asgi_request, h]

/-- Witness for C3: a channel that raises "timed out" on the first call,
against an empty scope. -/
theorem C3_connection_error_witness :
    (∀ rest, drainBody (RecvResult.connError "timed out" :: rest) =
      some (Except.error (DrainErr.conn "timed out"))) ∧
    ∃ ev, adapt_asgi_request (fun _ => Except.ok "")
        ⟨Option.none, Option.none, Option.none, Option.none⟩
        [RecvResult.connError "timed out"] = some ev ∧
      ev.headers = [("x-error", "Connection error: " ++ "timed out")] ∧
      ev.method = Option.none.getD "GET" ∧ ev.path = Option.none.getD "/" ∧
      ev.query_string = "" ∧ ev.source = "knative" ∧ ev.body = Option.none :=
  C3_connection_error _ _ _ _ rfl

/-- C4: `get_header` succeeds for any case variant of a stored header name
and, under duplicates differing only in case, returns the value of the
first matching key in insertion order. -/
theorem C4_get_header_case_insensitive (e : MultiCloudEvent) (name : String)
    (dflt : Option String) :
    (∀ kv, kv ∈ e.headers → strToLower kv.1 = strToLower name →
      ∃ kv2, e.headers.find? (fun p => strToLower p.1 == strToLower name) =
          some kv2 ∧ kv2 ∈ e.headers ∧ strToLower kv2.1 = strToLower name ∧
        get_header e name dflt = some kv2.2) ∧
    (∀ kv2, e.headers.find? (fun p => strToLower p.1 == strToLower name) =
        some kv2 → get_header e name dflt = some kv2.2) := by
  constructor
  · intro kv hmem hlow
    cases hf : e.headers.find? (fun p => strToLower p.1 == strToLower name) with
    | none =>
      have hnone := List.find?_eq_none.mp hf kv hmem
      simp [hlow] at hnone
    | some kv2 =>
      refine ⟨kv2, rfl, List.mem_of_find?_eq_some hf, ?_, ?_⟩
      · have hp := List.find?_some hf
        simpa using hp
      · simp [get_header, headerLookup_eq_find, hf]
  · intro kv2 hf
    simp [get_header, headerLookup_eq_find, hf]

/-- Witness for C4: two stored keys differing only in case; an
odd-case lookup returns the value of the first one, not the default. -/
theorem C4_get_header_case_insensitive_witness :
    ∃ kv2, [("Content-Type", "a"), ("CONTENT-TYPE", "b")].find?
        (fun p => strToLower p.1 == strToLower "content-TYPE") = some kv2 ∧
      kv2 ∈ [("Content-Type", "a"), ("CONTENT-TYPE", "b")] ∧
      strToLower kv2.1 = strToLower "content-TYPE" ∧
      get_header ⟨"GET", "/", [("Content-Type", "a"), ("CONTENT-TYPE", "b")],
          "", Option.none, "u"⟩ "content-TYPE" (some "zz") = some kv2.2 :=
  (C4_get_header_case_insensitive
      ⟨"GET", "/", [("Content-Type", "a"), ("CONTENT-TYPE", "b")], "",
        Option.none, "u"⟩ "content-TYPE" (some "zz")).1
    ("Content-Type", "a") (by simp) (by decide)

/-- C8: a body delivered as chunks whose continuation flags are true for
all but the last is reassembled as the byte-wise concatenation of the
chunk payloads in arrival order, whatever the chunk sizes, and exactly one
receive is consumed per chunk (the channel tail is left untouched). -/
theorem C8_chunked_reassembly (chunks : List (List Nat))
    (rest : List RecvResult) (h : chunks ≠ []) :
    drainBody (chunkMsgs chunks ++ rest) =
      some (Except.ok (chunks.flatten, rest)) ∧
    (chunkMsgs chunks).length = chunks.length := by
  constructor
  · cases chunks with
    | nil => exact absurd rfl h
    | cons c t =>
      cases t with
      | nil =>
        show drainMore rest c false = some (Except.ok ([c].flatten, rest))
        rw [drainMore_stop]
        simp
      | cons c2 t2 =>
        show drainMore (chunkMsgs (c2 :: t2) ++ rest) c true =
          some (Except.ok ((c :: c2 :: t2).flatten, rest))
        rw [drainMore_chunks]
        simp
  · exact chunkMsgs_length chunks

/-- Witness for C8: three chunks of different sizes, flags true/true/false. -/
theorem C8_chunked_reassembly_witness :
    drainBody (chunkMsgs [[1], [2, 3], [4]] ++ []) =
      some (Except.ok ([[1], [2, 3], [4]].flatten, [])) ∧
    (chunkMsgs [[1], [2, 3], [4]]).length = [[1], [2, 3], [4]].length :=
  C8_chunked_reassembly [[1], [2, 3], [4]] [] (by simp)

/-- C5: on a text body with an XML content type, `get_xml()` returns the
`_xml_to_dict` conversion of the parse tree (None on a parse error), where
attributes sit under "@attributes", a childless element with
non-whitespace text collapses to its trimmed text, and repeated child
tags become an ordered list — e.g. users/John/Jane gives
user ↦ [John, Jane]. -/
theorem C5_get_xml_conversion (xp : String → Option XmlElem)
    (e : MultiCloudEvent) (s : String) :
    (e.body = some (BodyVal.str s) → is_xml e = true →
      (∀ root, xp s = some root → get_xml xp e = some (xml_to_dict root)) ∧
      (xp s = Option.none → get_xml xp e = Option.none)) ∧
    (∀ tag attrib t, ¬ t = "" → ¬ pyStrip t = "" →
      xml_to_dict (XmlElem.mk tag attrib (some t) XmlForest.nil) =
        PyVal.str (pyStrip t)) ∧
    xml_to_dict (XmlElem.mk "user" [("id", "123")] Option.none
        (XmlForest.cons (XmlElem.mk "name" [] (some "John") XmlForest.nil)
          XmlForest.nil)) =
      PyVal.dict [("@attributes", PyVal.dict [("id", PyVal.str "123")]),
        ("name", PyVal.str "John")] ∧
    xml_to_dict (XmlElem.mk "users" [] Option.none
        (XmlForest.cons (XmlElem.mk "user" [] (some "John") XmlForest.nil)
          (XmlForest.cons (XmlElem.mk "user" [] (some "Jane") XmlForest.nil)
            XmlForest.nil))) =
      PyVal.dict [("user", PyVal.list [PyVal.str "John", PyVal.str "Jane"])] := by
  refine ⟨?_, ?_, rfl, rfl⟩
  · intro hb hx
    constructor
    · intro root hp
      simp [get_xml, hb, hx, hp]
    · intro hp
      simp [get_xml, hb, hx, hp]
  · intro tag attrib t h1 h2
    have hb1 : (t == "") = false := by simpa using h1
    have hb2 : (pyStrip t == "") = false := by simpa using h2
    simp [xml_to_dict, hb1, hb2, XmlForest.isEmpty]

/-- Witness for C5: a concrete parse function and an XML-typed event. -/
theorem C5_get_xml_conversion_witness :
    get_xml
        (fun s => if s = "<u><a>x</a></u>"
          then some (XmlElem.mk "u" [] Option.none
            (XmlForest.cons (XmlElem.mk "a" [] (some "x") XmlForest.nil)
              XmlForest.nil))
          else Option.none)
        ⟨"POST", "/", [("content-type", "application/xml")], "",
          some (BodyVal.str "<u><a>x</a></u>"), "u"⟩ =
      some (PyVal.dict [("a", PyVal.str "x")]) :=
  ((C5_get_xml_conversion
      (fun s => if s = "<u><a>x</a></u>"
        then some (XmlElem.mk "u" [] Option.none
          (XmlForest.cons (XmlElem.mk "a" [] (some "x") XmlForest.nil)
            XmlForest.nil))
        else Option.none)
      ⟨"POST", "/", [("content-type", "application/xml")], "",
        some (BodyVal.str "<u><a>x</a></u>"), "u"⟩
      "<u><a>x</a></u>").1 rfl rfl).1
    (XmlElem.mk "u" [] Option.none
      (XmlForest.cons (XmlElem.mk "a" [] (some "x") XmlForest.nil)
        XmlForest.nil)) rfl

/-- C7: every content-interpretation miss degrades to None instead of a
raised fault: malformed JSON or XML, a non-JSON/non-XML content type on a
text body, non-decodable bytes under `get_text`, and a body of the wrong
runtime shape for the accessor, including no body at all. -/
theorem C7_accessors_degrade_to_none (jl : String → Option PyVal)
    (xp : String → Option XmlElem) (udec : List Nat → Option String)
    (e : MultiCloudEvent) :
    (∀ s, e.body = some (BodyVal.str s) → is_json e = true →
      jl s = Option.none → get_json jl e = Option.none) ∧
    (∀ s, e.body = some (BodyVal.str s) → is_json e = false →
      get_json jl e = Option.none) ∧
    (∀ s, e.body = some (BodyVal.str s) → is_xml e = true →
      xp s = Option.none → get_xml xp e = Option.none) ∧
    (∀ s, e.body = some (BodyVal.str s) → is_xml e = false →
      get_xml xp e = Option.none) ∧
    (∀ b, e.body = some (BodyVal.bytes b) → udec b = Option.none →
      get_text udec e = Option.none) ∧
    (∀ b, e.body = some (BodyVal.bytes b) →
      get_json jl e = Option.none ∧ get_xml xp e = Option.none) ∧
    (∀ s, e.body = some (BodyVal.str s) →
      get_binary e = Option.none ∧ get_base64 e = Option.none) ∧
    (e.body = Option.none →
      get_json jl e = Option.none ∧ get_xml xp e = Option.none ∧
      get_text udec e = Option.none ∧ get_binary e = Option.none ∧
      get_base64 e = Option.none) := by
  refine ⟨?_, ?_, ?_, ?_, ?_, ?_, ?_, ?_⟩
  · intro s hb hj hn
    simp [get_json, hb, hj, hn]
  · intro s hb hj
    simp [get_json, hb, hj]
  · intro s hb hx hn
    simp [get_xml, hb, hx, hn]
  · intro s hb hx
    simp [get_xml, hb, hx]
  · intro b hb hn
    simp [get_text, hb, hn]
  · intro b hb
    exact ⟨by simp [get_json, hb], by simp [get_xml, hb]⟩
  · intro s hb
    exact ⟨by simp [get_binary, hb], by simp [get_base64, hb]⟩
  · intro hb
    exact ⟨by simp [get_json, hb], by simp [get_xml, hb],
      by simp [get_text, hb], by simp [get_binary, hb],
      by simp [get_base64, hb]⟩

/-- Witness for C7: malformed JSON under a JSON content type gives None. -/
theorem C7_accessors_degrade_to_none_witness :
    get_json (fun _ => Option.none)
        ⟨"POST", "/", [("content-type", "application/json")], "",
          some (BodyVal.str "not json"), "u"⟩ = Option.none :=
  (C7_accessors_degrade_to_none (fun _ => Option.none) (fun _ => Option.none)
      (fun _ => Option.none)
      ⟨"POST", "/", [("content-type", "application/json")], "",
        some (BodyVal.str "not json"), "u"⟩).1
    "not json" rfl rfl rfl

/-- C10: when an element has both children and non-whitespace own text,
the trimmed text is stored under the key "text" next to the child-tag
keys (first conjunct, for children not named "text"), and a child element
literally tagged "text" merges with the own text of the element into a list
(second conjunct, concretely). -/
theorem C10_text_key_collision (tag : String) (attrib : List (String × String))
    (t : String) (children : XmlForest) (h1 : ¬ t = "")
    (h2 : ¬ pyStrip t = "") (h3 : children.isEmpty = false)
    (h4 : ∀ ct ∈ XmlForest.tags children, ¬ ct = "text") :
    (∃ entries, xml_to_dict (XmlElem.mk tag attrib (some t) children) =
        PyVal.dict entries ∧
      alistGet entries "text" = some (PyVal.str (pyStrip t))) ∧
    xml_to_dict (XmlElem.mk "r" [] (some "hello")
        (XmlForest.cons (XmlElem.mk "text" [] (some "world") XmlForest.nil)
          XmlForest.nil)) =
      PyVal.dict [("text", PyVal.list [PyVal.str "hello", PyVal.str "world"])] := by
  constructor
  · have hb1 : (t == "") = false := by simpa using h1
    have hb2 : (pyStrip t == "") = false := by simpa using h2
    have hx : xml_to_dict (XmlElem.mk tag attrib (some t) children) =
        PyVal.dict (xmlChildren (alistSet
          (if attrib.isEmpty then []
           else [("@attributes",
             PyVal.dict (attrib.map (fun p => (p.1, PyVal.str p.2))))])
          "text" (PyVal.str (pyStrip t))) children) := by
      simp [xml_to_dict, hb1, hb2, h3]
    refine ⟨_, hx, ?_⟩
    rw [xmlChildren_get_ne children _ _ h4, alistGet_alistSet_self]
  · rfl

/-- Witness for C10: an element with text " hi " and one child <a>. -/
theorem C10_text_key_collision_witness :
    ∃ entries, xml_to_dict (XmlElem.mk "r" [] (some " hi ")
        (XmlForest.cons (XmlElem.mk "a" [] (some "x") XmlForest.nil)
          XmlForest.nil)) = PyVal.dict entries ∧
      alistGet entries "text" = some (PyVal.str (pyStrip " hi ")) :=
  (C10_text_key_collision "r" [] " hi "
      (XmlForest.cons (XmlElem.mk "a" [] (some "x") XmlForest.nil)
        XmlForest.nil)
      (by decide) (by decide) rfl (by decide)).1

/-- C2: on a successful adapter run, an empty accumulated body leaves the
event body unset; otherwise the declared content-type is compared
case-insensitively against the allow-list of text-like prefixes, a hit is
decoded as UTF-8 into a text body, and a decode failure or a miss (absent
content-type included) keeps the raw bytes. -/
theorem C2_convert_body_policy (udec : List Nat → Except String String)
    (scope : Scope) (recv : List RecvResult) (bodyBytes : List Nat)
    (rest : List RecvResult) (headers : List (String × String)) (qs : String)
    (hd : drainBody recv = some (Except.ok (bodyBytes, rest)))
    (hh : decodeHeaders udec (scope.headers.getD []) [] = Except.ok headers)
    (hq : udec (scope.query_string.getD []) = Except.ok qs) :
    ∃ ev, adapt_asgi_request udec scope recv = some ev ∧
      (bodyBytes = [] → ev.body = Option.none) ∧
      (∀ s, ¬ bodyBytes = [] →
        text_types.any (fun t => strStartsWith
          (strToLower ((alistGet headers "content-type").getD "")) t) = true →
        udec bodyBytes = Except.ok s → ev.body = some (BodyVal.str s)) ∧
      (∀ d2, ¬ bodyBytes = [] →
        text_types.any (fun t => strStartsWith
          (strToLower ((alistGet headers "content-type").getD "")) t) = true →
        udec bodyBytes = Except.error d2 →
        ev.body = some (BodyVal.bytes bodyBytes)) ∧
      (¬ bodyBytes = [] →
        text_types.any (fun t => strStartsWith
          (strToLower ((alistGet headers "content-type").getD "")) t) = false →
        ev.body = some (BodyVal.bytes bodyBytes)) ∧
      (∀ ct1 ct2 b, strToLower ct1 = strToLower ct2 →
        convert_body udec b ct1 = convert_body udec b ct2) := by
  refine ⟨MultiCloudEvent.mk (scope.method.getD "GET") (scope.path.getD "/")
      headers qs
      (convert_body udec bodyBytes ((alistGet headers "content-type").getD ""))
      "knative", ?_, ?_, ?_, ?_, ?_, ?_⟩
  · simp [adapt_asgi_request, hd, hh, hq]
  · intro hb
    simp [convert_body, hb]
  · intro s hb hat hok
    simp [convert_body, hb, hat, hok]
  · intro d2 hb hat herr
    simp [convert_body, hb, hat, herr]
  · intro hb hat
    simp [convert_body, hb, hat]
  · intro ct1 ct2 b hlow
    simp [convert_body, hlow]

/-- Witness for C2: one non-empty chunk of bytes without a content-type
header stays a raw byte body. -/
theorem C2_convert_body_policy_witness :
    ∃ ev, adapt_asgi_request (fun _ => Except.ok "")
        ⟨Option.none, Option.none, Option.none, Option.none⟩
        [RecvResult.ok ⟨some "http.request", some [0, 159], some false⟩] =
        some ev ∧ ev.body = some (BodyVal.bytes [0, 159]) := by
  obtain ⟨ev, h1, _, _, _, h5, _⟩ :=
    C2_convert_body_policy (fun _ => Except.ok "")
      ⟨Option.none, Option.none, Option.none, Option.none⟩
      [RecvResult.ok ⟨some "http.request", some [0, 159], some false⟩]
      [0, 159] [] [] "" rfl rfl rfl
  exact ⟨ev, h1, h5 (by simp) rfl⟩

/-- C6: `get_query_param` reads the form-urlencoded parse of
`query_string`: it returns the value of the first matching pair of the
flat parse (so a repeated parameter yields only its first value), the
default when no pair matches, and the default for every name when the
query string is empty. -/
theorem C6_get_query_param_first (unq : String → String) (e : MultiCloudEvent)
    (name : String) (dflt : Option String) :
    (∀ p, (parse_qsl unq e.query_string).find? (fun q => q.1 == name) =
      some p → get_query_param unq e name dflt = some p.2) ∧
    ((parse_qsl unq e.query_string).find? (fun q => q.1 == name) =
      Option.none → get_query_param unq e name dflt = dflt) ∧
    (e.query_string = "" → get_query_param unq e name dflt = dflt) := by
  have key : alistGet (parse_qs unq e.query_string) name =
      match (parse_qsl unq e.query_string).filter (fun q => q.1 == name) with
      | [] => Option.none
      | ps => some (ps.map Prod.snd) := by
    rw [parse_qs, foldl_group_get]
    cases hf : (parse_qsl unq e.query_string).filter (fun q => q.1 == name) with
    | nil => rfl
    | cons q tail => rfl
  refine ⟨?_, ?_, ?_⟩
  · intro p hp
    rw [find_eq_filter_head] at hp
    cases hf : (parse_qsl unq e.query_string).filter (fun q => q.1 == name) with
    | nil =>
      rw [hf] at hp
      exact Option.noConfusion hp
    | cons q tail =>
      rw [hf] at hp
      have hq2 : q = p := by simpa using hp
      subst hq2
      simp [get_query_param, key, hf]
  · intro hnone
    rw [find_eq_filter_head] at hnone
    have hf : (parse_qsl unq e.query_string).filter (fun q => q.1 == name) = [] := by
      simpa using hnone
    simp [get_query_param, key, hf]
  · intro hqs
    simp [get_query_param, parse_qs, parse_qsl, hqs, alistGet_nil]

/-- Witness for C6: a repeated parameter returns its first value. -/
theorem C6_get_query_param_first_witness :
    get_query_param id ⟨"GET", "/", [], "a=1&a=2&b=3", Option.none, "u"⟩
      "a" Option.none = some "1" :=
  (C6_get_query_param_first id
      ⟨"GET", "/", [], "a=1&a=2&b=3", Option.none, "u"⟩ "a" Option.none).1
    ("a", "1") rfl

/-- C9: every pair surviving `parse_qsl` comes from a field whose raw
value is non-empty (blank-valued parameters are dropped during parsing),
so `get_query_param` on `"name=&other=1"` returns the default for
"name" — an empty-valued parameter is indistinguishable from an absent
one. -/
theorem C9_blank_values_dropped (unq : String → String) :
    (∀ qs p, p ∈ parse_qsl unq qs →
      ∃ nv n v, nv ∈ (if qs = "" then []
          else strSplitOn (Char.ofNat 38) qs) ∧
        splitFirstEq nv = some (n, v) ∧ ¬ v = "" ∧
        p = (unq (plusToSpace n), unq (plusToSpace v))) ∧
    (∀ dflt, ¬ unq "other" = "name" →
      get_query_param unq ⟨"GET", "/", [], "name=&other=1", Option.none, "u"⟩
        "name" dflt = dflt) := by
  constructor
  · intro qs p hp
    rw [parse_qsl] at hp
    obtain ⟨nv, hmem, hf⟩ := List.mem_filterMap.mp hp
    by_cases h1 : nv = ""
    · rw [if_pos h1] at hf
      exact Option.noConfusion hf
    · rw [if_neg h1] at hf
      cases hsp : splitFirstEq nv with
      | none =>
        rw [hsp] at hf
        exact Option.noConfusion hf
      | some nvp =>
        obtain ⟨n, v⟩ := nvp
        rw [hsp] at hf
        dsimp only at hf
        by_cases hv : v = ""
        · rw [if_pos hv] at hf
          exact Option.noConfusion hf
        · rw [if_neg hv] at hf
          exact ⟨nv, n, v, hmem, hsp, hv, (Option.some.inj hf).symm⟩
  · intro dflt hu
    have hqsl : parse_qsl unq "name=&other=1" = [(unq "other", unq "1")] := rfl
    have hpq : parse_qs unq "name=&other=1" = [(unq "other", [unq "1"])] := by
      rw [parse_qs, hqsl]
      rfl
    simp [get_query_param, hpq, alistGet_cons, alistGet_nil, hu]

/-- Witness for C9: the example query string with the identity unquote. -/
theorem C9_blank_values_dropped_witness :
    get_query_param id ⟨"GET", "/", [], "name=&other=1", Option.none, "u"⟩
      "name" (some "dflt") = some "dflt" :=
  (C9_blank_values_dropped id).2 (some "dflt") (by decide)

end MultiCloud
